import Mathlib

/-!
Verification of the claude-vtuber-avatar speech pipeline.

The development shallowly embeds the program's core functions and state
machines:

* `getWavDuration` — the WAV duration estimator of `electron/main.cjs`
  (`src/unnamed/part_004`, lines 248-263) and `src/server.ts` (lines
  291-322).  Buffers are lists of byte values; `readUInt32LE` returns
  `none` where Node's `Buffer.readUInt32LE` would throw a `RangeError`
  (the surrounding `try/catch` then yields the fallback).  The exact
  rational floor `dataSize * 1000 / byteRate` models the JavaScript
  `Math.floor((dataSize / byteRate) * 1000)`.
* `truncatedText` — the pre-synthesis truncation of `speakWithVoicevox`;
  JavaScript strings are modelled as lists of UTF-16 code units.
* `postExpression` — the `POST /expression` handler of
  `src/unnamed/part_004` lines 494-503.
* a timing model of the `enqueueSpeech` promise chain (part_004 lines
  225-233), a per-request trace model of the queued `speakWithVoicevox`
  task (part_004 lines 265-345), and a state model of the preemptive
  implementation (part_003 / `src/server.ts`) with `stopCurrentPlayback`
  and the playback close handler.
* the session-watcher tailer (`src/unnamed/part_005` and the
  `sessionWatcher` object of part_004): `processNewLines`, the
  debounce-cycle step, and the debounce timer itself.
-/

namespace Avatar

/-! ## Constants (src/constants.ts / part_004 lines 106-120) -/

def EXPRESSION_DURATION_MS : Nat := 3000

def MAX_TEXT_LENGTH : Nat := 200

def DEFAULT_AUDIO_DURATION_MS : Nat := 2000

def DEBOUNCE_MS : Nat := 100

def EXPRESSIONS : List String := ["normal", "smile", "eye_sparkle", "surprise", "shock"]

/-! ## DurationEstimator: getWavDuration -/

/-- Little-endian 32-bit read, `buffer.readUInt32LE(off)`.  Returns `none`
exactly when the four bytes are not all inside the buffer, which is when
Node throws a `RangeError`. -/
def readUInt32LE (buf : List Nat) (off : Nat) : Option Nat :=
  match buf[off]?, buf[off+1]?, buf[off+2]?, buf[off+3]? with
  | some b0, some b1, some b2, some b3 =>
      some (b0 + b1 * 256 + b2 * 65536 + b3 * 16777216)
  | _, _, _, _ => none

/-- Test for the 4-byte ASCII tag `data` at index `i` of the buffer. -/
def isDataTagAt (buf : List Nat) (i : Nat) : Bool :=
  buf[i]? == some 0x64 && buf[i+1]? == some 0x61 &&
  buf[i+2]? == some 0x74 && buf[i+3]? == some 0x61

/-- Scan loop of `getWavDuration`: starting at index `i` with `fuel`
iterations remaining, find the first `data` tag and read the 32-bit size
that follows it.  The JavaScript loop `for (i = 0; i < buffer.length - 8; i++)`
performs exactly `buffer.length - 8` iterations (none when the length is
at most 8), so the entry point below passes that count as fuel. -/
def scanDataSizeAux (buf : List Nat) : Nat → Nat → Option Nat
  | 0, _ => none
  | fuel + 1, i =>
      if isDataTagAt buf i then readUInt32LE buf (i + 4)
      else scanDataSizeAux buf fuel (i + 1)

/-- Result of the `data`-chunk scan of `getWavDuration`: `none` when the
loop leaves `dataSize` at its initial 0. -/
def scanDataSize (buf : List Nat) : Option Nat :=
  scanDataSizeAux buf (buf.length - 8) 0

/-- The WAV duration estimator (part_004 lines 248-263): read the byte
rate at offset 28, scan for the `data` chunk, and return
`floor(dataSize / byteRate * 1000)`; on a zero byte rate, zero data size,
missing tag, or out-of-range read, return `DEFAULT_AUDIO_DURATION_MS`. -/
def getWavDuration (buf : List Nat) : Nat :=
  match readUInt32LE buf 28 with
  | none => DEFAULT_AUDIO_DURATION_MS
  | some byteRate =>
      match scanDataSize buf with
      | none => DEFAULT_AUDIO_DURATION_MS
      | some dataSize =>
          if dataSize = 0 || byteRate = 0 then DEFAULT_AUDIO_DURATION_MS
          else dataSize * 1000 / byteRate

/-- Buffer refuting claim C4 as literally stated: the byte rate at offset
28 is 1, a `data` tag sits at index 32 and the nonzero size 1000 fills the
final four bytes 36-39, yet the scan bound `i < length - 8 = 32` never
reaches index 32. -/
def c4Buffer : List Nat :=
  List.replicate 28 0 ++ [1, 0, 0, 0] ++ [0x64, 0x61, 0x74, 0x61] ++ [232, 3, 0, 0]

/-! ## Truncation before synthesis -/

/-- Truncation performed by `speakWithVoicevox` (part_004 line 269):
`text.length > MAX_TEXT_LENGTH ? text.slice(0, MAX_TEXT_LENGTH) + '...' : text`.
Text is a list of UTF-16 code units; 46 is the code unit of `.`. -/
def truncatedText (text : List Nat) : List Nat :=
  if text.length > MAX_TEXT_LENGTH then text.take MAX_TEXT_LENGTH ++ [46, 46, 46]
  else text

/-! ## POST /expression handler -/

/-- Body of a `POST /expression` request; `none` models an absent or
`null` JSON field. -/
structure ExpressionRequest where
  name : Option String
  duration : Option Int

/-- Broadcast expression event `\x7b type: 'expression', name, duration \x7d`. -/
structure ExpressionEvent where
  name : String
  durationMs : Int
deriving DecidableEq

/-- Observable outcome of the `/expression` handler: a 400 response, or a
200 response together with the broadcast event. -/
inductive ExpressionResponse
  | badRequest
  | ok (event : ExpressionEvent)
deriving DecidableEq

/-- The `POST /expression` handler (part_004 lines 494-503).  A missing or
empty or unknown name yields 400; otherwise the broadcast duration is
`duration || EXPRESSION_DURATION_MS`, where the JavaScript `||` treats the
numbers 0 and `null`/absent as falsy. -/
def postExpression (req : ExpressionRequest) : ExpressionResponse :=
  match req.name with
  | none => .badRequest
  | some n =>
      if n = "" || !(EXPRESSIONS.contains n) then .badRequest
      else
        let durationMs : Int :=
          match req.duration with
          | some d => if d = 0 then (EXPRESSION_DURATION_MS : Int) else d
          | none => (EXPRESSION_DURATION_MS : Int)
        .ok ⟨n, durationMs⟩

/-! ## Timing model of the enqueueSpeech promise chain (part_004, 225-233)

`enqueueSpeech` replaces `speechQueue` by `speechQueue.then(task).catch(log)`,
so the k-th enqueued synthesis-and-playback task begins only once it has
been enqueued and the (k-1)-th task's promise has settled; the `.catch`
makes the chain settle even when a task rejects.  `arrival k` is the time
`speak` call `k` is enqueued and `dur k` how long its task body runs. -/

/-- Settlement time of the k-th task of the speech queue. -/
def taskFinish (arrival dur : Nat → Nat) : Nat → Nat
  | 0 => arrival 0 + dur 0
  | k + 1 => max (arrival (k + 1)) (taskFinish arrival dur k) + dur (k + 1)

/-- Start time of the k-th task of the speech queue: its enqueue time or
the settlement of the previous task, whichever is later. -/
def taskStart (arrival dur : Nat → Nat) : Nat → Nat
  | 0 => arrival 0
  | k + 1 => max (arrival (k + 1)) (taskFinish arrival dur k)

/-- The k-th synthesis-and-playback sequence is active at time t. -/
def taskActive (arrival dur : Nat → Nat) (k t : Nat) : Prop :=
  taskStart arrival dur k ≤ t ∧ t < taskFinish arrival dur k

/-! ## Trace model of the queued speakWithVoicevox task (part_004, 265-345) -/

/-- Observable events of one speech request: the two lipsync broadcasts,
the start and settlement of the playback process, and the temp-file
writes and unlinks.  Files and processes are named by the request index. -/
inductive Ev
  | startMotion (durationMs : Nat)
  | stopMotion
  | playBegin (file : Nat)
  | playEnd (file : Nat)
  | fileWrite (file : Nat)
  | fileUnlink (file : Nat)
deriving DecidableEq

/-- Outcome of the two synthesis fetches: an error caught before any
audio artifact exists (connection refused or a non-2xx status throws, the
catch block logs), or raw audio bytes. -/
inductive SynthResult
  | failBeforeAudio
  | audio (bytes : List Nat)
deriving DecidableEq

/-- How the playback process settles: the `close` handler (resolve) or
the `error` handler (reject, caught by the task's catch and the queue's
`.catch`). -/
inductive PlayResult
  | closed
  | errored
deriving DecidableEq

/-- One speak request together with how its external calls turn out. -/
structure SpeakRequest where
  synth : SynthResult
  play : PlayResult
deriving DecidableEq

/-- Mutable module state of part_004's speech section: the set of temp
files currently on disk and the `currentTempFile` variable.
`currentPlayProcess` is not needed by the queued model because the task
holds the only live process between its `playBegin` and `playEnd`. -/
structure OrchState where
  disk : List Nat
  currentTempFile : Option Nat
deriving DecidableEq

/-- One queued task body (part_004 lines 266-344).  On synthesis failure
the catch block logs and nothing observable happens.  Otherwise the task
writes the temp file, estimates the duration, broadcasts lipsync-start,
spawns playback, and settles through exactly one of the two handlers:
`close` broadcasts lipsync-stop and unlinks the file if `currentTempFile`
still points at it; `error` broadcasts lipsync-stop and rejects without
unlinking. -/
def runSpeakTask (st : OrchState) (id : Nat) (req : SpeakRequest) :
    OrchState × List Ev :=
  match req.synth with
  | .failBeforeAudio => (st, [])
  | .audio bytes =>
      let d := getWavDuration bytes
      let st1 : OrchState := ⟨st.disk ++ [id], some id⟩
      let pre : List Ev := [.fileWrite id, .startMotion d, .playBegin id, .playEnd id, .stopMotion]
      match req.play with
      | .closed =>
          if st1.currentTempFile = some id then
            (⟨st1.disk.erase id, none⟩, pre ++ [.fileUnlink id])
          else (st1, pre)
      | .errored => (st1, pre)

/-- Serial execution of the speech queue: requests run one after another
in enqueue order (the serialization proved for the promise chain), each
threading the module state and appending its events. -/
def runSpeakQueue (st : OrchState) : Nat → List SpeakRequest → OrchState × List Ev
  | _, [] => (st, [])
  | id, req :: rest =>
      let r1 := runSpeakTask st id req
      let r2 := runSpeakQueue r1.1 (id + 1) rest
      (r2.1, r1.2 ++ r2.2)

/-- Motion broadcasts and playback boundaries of a trace, with the
file-system events removed. -/
def motionAndPlayEvents (evs : List Ev) : List Ev :=
  evs.filter fun e =>
    match e with
    | .fileWrite _ => false
    | .fileUnlink _ => false
    | _ => true

/-- Count of lipsync-start broadcasts in a trace. -/
def countStarts (evs : List Ev) : Nat :=
  (evs.filter fun e => match e with | .startMotion _ => true | _ => false).length

/-- Count of lipsync-stop broadcasts in a trace. -/
def countStops (evs : List Ev) : Nat :=
  (evs.filter fun e => match e with | .stopMotion => true | _ => false).length

/-- Temp files on disk after replaying the file events of a trace over an
initial disk: `fileWrite` appends, `fileUnlink` removes. -/
def diskOf : List Ev → List Nat → List Nat
  | [], d => d
  | .fileWrite f :: r, d => diskOf r (d ++ [f])
  | .fileUnlink f :: r, d => diskOf r (d.erase f)
  | _ :: r, d => diskOf r d

/-! ## Preemptive implementation (part_003 lines 204-333, src/server.ts)

The older implementations cancel the in-flight request instead of
queueing: `speakWithVoicevox` first calls `stopCurrentPlayback`, which
kills the running playback process, broadcasts lipsync-stop, and unlinks
the temp file.  Killing the process makes the OS terminate it, after
which its `close` handler runs, and that handler broadcasts lipsync-stop
unconditionally (only the nulling of `currentPlayProcess` and the unlink
are guarded). -/

/-- Module state of the preemptive implementation. -/
structure PreemptState where
  currentPlayProcess : Option Nat
  currentTempFile : Option Nat
deriving DecidableEq

/-- The `stopCurrentPlayback` of part_003 lines 209-224: if a playback
process is live, kill it, clear the variable, and broadcast lipsync-stop;
then unlink the recorded temp file if any. -/
def stopCurrentPlayback (st : PreemptState) : PreemptState × List Ev :=
  let r1 : PreemptState × List Ev :=
    match st.currentPlayProcess with
    | some _ => (⟨none, st.currentTempFile⟩, [.stopMotion])
    | none => (st, [])
  match r1.1.currentTempFile with
  | some f => (⟨r1.1.currentPlayProcess, none⟩, r1.2 ++ [.fileUnlink f])
  | none => r1

/-- The playback `close` handler of part_003 lines 304-313 for process
`pid` playing `tempFile`: null `currentPlayProcess` if it still points at
this process, broadcast lipsync-stop unconditionally, and unlink the file
if `currentTempFile` still points at it. -/
def playbackCloseHandler (st : PreemptState) (pid tempFile : Nat) :
    PreemptState × List Ev :=
  let st1 : PreemptState :=
    if st.currentPlayProcess = some pid then ⟨none, st.currentTempFile⟩ else st
  if st1.currentTempFile = some tempFile then
    (⟨st1.currentPlayProcess, none⟩, [.stopMotion, .fileUnlink tempFile])
  else (st1, [.stopMotion])

/-- Broadcast trace of request 0 in the preemptive implementation when a
second speak call arrives while request 0 is playing: request 0 has
broadcast lipsync-start; the new call runs `stopCurrentPlayback`, which
kills process 0 and broadcasts lipsync-stop; the killed process then
settles and its `close` handler broadcasts lipsync-stop again. -/
def preemptCancelTrace : List Ev :=
  let s0 : PreemptState := ⟨some 0, some 0⟩
  let r1 := stopCurrentPlayback s0
  let r2 := playbackCloseHandler r1.1 0 0
  .startMotion DEFAULT_AUDIO_DURATION_MS :: (r1.2 ++ r2.2)

/-! ## Error classification of speakWithVoicevox (src/server.ts 263-274) -/

/-- Which of the two synthesis fetches a non-2xx status came from. -/
inductive SynthCall
  | audioQuery
  | synthesis
deriving DecidableEq

/-- Errors reaching the catch block of `speakWithVoicevox`. -/
inductive SpeechError
  | abortError
  | fetchConnRefused
  | httpNotOk (call : SynthCall) (status : Nat)
  | other (msg : String)
deriving DecidableEq

/-- Observable outcome of the catch block: an informational log and a
plain return (the cancellation path), an error log and a plain return, or
a rethrow out of the function. -/
inductive CatchOutcome
  | logInfoReturn
  | logErrorReturn
  | rethrow
deriving DecidableEq

/-- The catch block of `src/server.ts` lines 263-274: an `AbortError` is
logged with `console.log` and swallowed; a message containing
`ECONNREFUSED` is logged with `console.error` and swallowed; everything
else (in particular the `Audio query failed` / `Synthesis failed` errors
thrown on non-2xx statuses) is rethrown. -/
def voicevoxCatch : SpeechError → CatchOutcome
  | .abortError => .logInfoReturn
  | .fetchConnRefused => .logErrorReturn
  | .httpNotOk _ _ => .rethrow
  | .other _ => .rethrow

/-- The catch block of part_004 lines 336-343: `ECONNREFUSED` gets the
dedicated error log, every other error is logged as `Speech error:`;
nothing is rethrown (and the queue's `.catch` would swallow it anyway). -/
def mainCatch : SpeechError → CatchOutcome
  | .fetchConnRefused => .logErrorReturn
  | _ => .logErrorReturn

/-- Node's `res.ok`: the status is in the 2xx range. -/
def statusOk (s : Nat) : Bool := 200 ≤ s && s ≤ 299

/-- Error raised by the try body of `speakWithVoicevox` for the two fetch
statuses: a non-2xx audio-query status throws first, otherwise a non-2xx
synthesis status throws. -/
def synthHttpError (qs ss : Nat) : Option SpeechError :=
  if !statusOk qs then some (.httpNotOk .audioQuery qs)
  else if !statusOk ss then some (.httpNotOk .synthesis ss)
  else none

/-! ## Session-log tailer (src/unnamed/part_005, sessionWatcher of part_004)

A line of a session log either fails `JSON.parse` (modelled as `none`) or
parses to a record with a `type`, a `uuid`, an optional message role and
a content array. -/

/-- One element of a message's `content` array. -/
structure MessageContent where
  type : String
  text : Option String
deriving DecidableEq

/-- A parsed session-log line. -/
structure SessionLine where
  type : String
  uuid : String
  role : Option String
  content : List MessageContent
deriving DecidableEq

/-- A raw line as seen by the parse loop: `none` when `JSON.parse` throws
(blank or mid-append line) and the line is silently skipped. -/
abbrev RawLine := Option SessionLine

/-- The `extractTextFromContent` helper (part_005 lines 59-65): keep the
`text`-typed parts with nonempty text and join them with newlines;
`none` when no part qualifies.  JavaScript's `c.text` truthiness makes
the empty string falsy. -/
def extractTextFromContent (content : List MessageContent) : Option String :=
  let textParts := (content.filter fun c => c.type == "text" && c.text != none && c.text != some "").filterMap (·.text)
  if textParts.length > 0 then some (String.intercalate "\n" textParts) else none

/-- The parse loop of `processNewLines` (part_005 lines 87-113) over the
newly read lines: starting from the processed-uuid list, skip unparsable
lines, and for each assistant message whose uuid is not yet processed and
whose content yields text, forward `(uuid, text)` and record the uuid.
Returns the grown processed list and the forwards of this pass. -/
def processLines : List String → List RawLine → List String × List (String × String)
  | procd, [] => (procd, [])
  | procd, none :: rest => processLines procd rest
  | procd, some l :: rest =>
      if l.type == "assistant" && l.role == some "assistant" && !procd.contains l.uuid then
        match extractTextFromContent l.content with
        | some t =>
            let r := processLines (l.uuid :: procd) rest
            (r.1, (l.uuid, t) :: r.2)
        | none => processLines procd rest
      else processLines procd rest

/-- A sequence of read passes: each pass parses its newly read lines with
the processed list carried over from the previous passes; forwards are
concatenated in order. -/
def runPasses : List String → List (List RawLine) → List String × List (String × String)
  | procd, [] => (procd, [])
  | procd, pass :: rest =>
      let r1 := processLines procd pass
      let r2 := runPasses r1.1 rest
      (r2.1, r1.2 ++ r2.2)

/-- Uuids of a forward list. -/
def forwardedUuids (fwd : List (String × String)) : List String :=
  fwd.map Prod.fst

/-! ## Tailer offsets and rotation -/

/-- The `filePositions` map: association list from file path to byte
offset; `get(f) || 0` is 0 for an absent entry. -/
def lookupPos (ps : List (String × Nat)) (f : String) : Nat :=
  (((ps.find? fun e => e.1 == f).map Prod.snd).getD 0)

/-- `filePositions.set(f, n)`. -/
def setPos (ps : List (String × Nat)) (f : String) (n : Nat) : List (String × Nat) :=
  (ps.filter fun e => !(e.1 == f)) ++ [(f, n)]

/-- Offset bookkeeping of one `processNewLines` call (part_005 lines
67-82) on file `f` whose `statSync` size is `size`: if the size is at
most the stored offset, return with no read; otherwise store the size as
the new offset first and read exactly the bytes `[lastPosition, size)`. -/
def processNewLinesPass (ps : List (String × Nat)) (f : String) (size : Nat) :
    List (String × Nat) × Option (Nat × Nat) :=
  let lastPosition := lookupPos ps f
  if size ≤ lastPosition then (ps, none)
  else (setPos ps f size, some (lastPosition, size))

/-- Tailer state per watched project directory: the offsets map and the
`currentSessionFile` reference. -/
structure TailerState where
  positions : List (String × Nat)
  current : Option String
deriving DecidableEq

/-- What the debounce callback observes of the directory when it fires:
the most recently modified `.jsonl` file (`findLatestSessionFile`) and
each file's current size. -/
structure DirSnapshot where
  latest : Option String
  size : String → Nat

/-- One debounce-cycle body (part_005 lines 169-181): re-find the latest
session file; if it differs from the current one adopt it and reset its
offset to 0 (rotation); then run `processNewLines` on the current file.
Returns the new state and the byte range read, if any. -/
def tailerCycle (st : TailerState) (d : DirSnapshot) :
    TailerState × Option (String × Nat × Nat) :=
  let rotated : TailerState :=
    match d.latest with
    | some lf => if st.current ≠ some lf then ⟨setPos st.positions lf 0, some lf⟩ else st
    | none => st
  match rotated.current with
  | none => (rotated, none)
  | some f =>
      let r := processNewLinesPass rotated.positions f (d.size f)
      (⟨r.1, some f⟩, r.2.map fun rng => (f, rng.1, rng.2))

/-- One debounce-cycle body including the parse stage: the lines obtained
from the read byte range (a function of the range, standing for the bytes
actually read) are fed to `processLines`.  The positions component never
depends on the parse results, which is what makes a parse error unable to
cause reprocessing. -/
def tailerCycleFull (procd : List String) (st : TailerState) (d : DirSnapshot)
    (readLines : Nat → Nat → List RawLine) :
    (List String × TailerState) × List (String × String) :=
  let r := tailerCycle st d
  match r.2 with
  | none => ((procd, r.1), [])
  | some rng =>
      let p := processLines procd (readLines rng.2.1 rng.2.2)
      ((p.1, r.1), p.2)

/-! ## Debounce timer (part_005 lines 164-181, part_004 lines 639-657)

Each filesystem notification clears the pending `setTimeout` (if it has
not fired yet) and starts a new one `DEBOUNCE_MS` in the future; a
pending timer fires at its expiry when no later notification cleared it.
The model folds over the notification times (in arrival order) carrying
the pending expiry, and flushes the final pending timer; the returned
list contains the times at which a read pass executes. -/

/-- Process one notification at time `t` against the pending timer: a
pending timer that expired at or before `t` has already fired; the
notification then schedules a fresh timer. -/
def debounceNotify (pending : Option Nat) (t : Nat) : Option Nat × List Nat :=
  match pending with
  | some f => if f ≤ t then (some (t + DEBOUNCE_MS), [f]) else (some (t + DEBOUNCE_MS), [])
  | none => (some (t + DEBOUNCE_MS), [])

/-- Fire times of the read passes produced by a sequence of notification
times, given the initially pending timer. -/
def debounceRun : Option Nat → List Nat → List Nat
  | pending, [] =>
      match pending with
      | some f => [f]
      | none => []
  | pending, t :: ts =>
      let r := debounceNotify pending t
      r.2 ++ debounceRun r.1 ts

/-! ## Process shutdown -/

/-- Process-level state relevant to shutdown: the speech module state
plus whether the session watcher and the HTTP server are open. -/
structure AppState where
  orch : OrchState
  watchersOpen : Bool
  serverOpen : Bool
deriving DecidableEq

/-- The `app.on('quit')` handler of part_004 lines 761-768: it stops the
session watcher and closes the server; it touches neither
`currentTempFile` nor the files on disk. -/
def quitApp (st : AppState) : AppState :=
  ⟨st.orch, false, false⟩

/-- Canonical WAV-like buffer used as a witness: byte rate 4 at offset
28, first `data` tag at index 36 with size 9, followed by payload
bytes. -/
def wavExample : List Nat :=
  List.replicate 28 0 ++ [4, 0, 0, 0] ++ [0, 0, 0, 0] ++
    [0x64, 0x61, 0x74, 0x61] ++ [9, 0, 0, 0] ++ [0, 0]

/-! # Theorems -/

/-- C5: text longer than 200 UTF-16 code units is truncated to exactly
its first 200 code units with the marker `...` appended before synthesis;
text of at most 200 code units is sent unchanged. -/
theorem truncation_spec (text : List Nat) :
    (text.length > MAX_TEXT_LENGTH →
      truncatedText text = text.take MAX_TEXT_LENGTH ++ [46, 46, 46] ∧
      (text.take MAX_TEXT_LENGTH).length = MAX_TEXT_LENGTH ∧
      ∀ k, k < MAX_TEXT_LENGTH → (truncatedText text)[k]? = text[k]?) ∧
    (text.length ≤ MAX_TEXT_LENGTH → truncatedText text = text) := by
  constructor
  · intro h
    refine ⟨by simp [truncatedText, h], ?_, ?_⟩
    · simp [List.length_take]
      omega
    · intro k hk
      have hk' : k < (text.take MAX_TEXT_LENGTH).length := by
        simp [List.length_take]
        omega
      simp only [truncatedText, if_pos h]
      rw [List.getElem?_append_left hk', List.getElem?_take_of_lt hk]
  · intro h
    simp [truncatedText, Nat.not_lt_of_le h]

/-- C5 witness: a 201-unit text is truncated to its first 200 units plus
the marker. -/
theorem truncation_spec_witness :
    truncatedText (List.replicate 201 97) =
      (List.replicate 201 97).take MAX_TEXT_LENGTH ++ [46, 46, 46] :=
  ((truncation_spec (List.replicate 201 97)).1
    (by rw [List.length_replicate]; norm_num [MAX_TEXT_LENGTH])).1

/-- C10: for a valid expression name, a duration of 0, null, or absent
falls back to the default 3000 ms in the broadcast event; a nonzero
supplied duration d is broadcast as d. -/
theorem expression_duration_fallback (req : ExpressionRequest) (n : String)
    (hn : req.name = some n) (hmem : n ∈ EXPRESSIONS) :
    ((req.duration = none ∨ req.duration = some 0) →
      postExpression req = .ok ⟨n, (3000 : Int)⟩) ∧
    (∀ d : Int, req.duration = some d → d ≠ 0 → postExpression req = .ok ⟨n, d⟩) := by
  have hcases : n = "normal" ∨ n = "smile" ∨ n = "eye_sparkle" ∨ n = "surprise" ∨ n = "shock" := by
    simpa [EXPRESSIONS] using hmem
  have hne : ¬ n = "" := by
    rcases hcases with rfl | rfl | rfl | rfl | rfl <;> simp
  obtain ⟨rn, rd⟩ := req
  cases hn
  constructor
  · rintro (hd | hd) <;> cases hd <;>
      simp [postExpression, EXPRESSION_DURATION_MS] <;> exact ⟨hne, hmem⟩
  · intro d hd hd0
    cases hd
    simp [postExpression, hd0]
    exact ⟨hne, hmem⟩

/-- C10 witness: a request for `smile` with duration 0 broadcasts the
default 3000 ms. -/
theorem expression_duration_fallback_witness :
    postExpression ⟨some "smile", some 0⟩ = .ok ⟨"smile", (3000 : Int)⟩ :=
  (expression_duration_fallback ⟨some "smile", some 0⟩ "smile" rfl (by decide)).1 (Or.inr rfl)

/-- Helper for C9: once a timer is pending, a run of notifications each
arriving strictly before the pending expiry leaves exactly one fire, at
the last notification plus the debounce window. -/
theorem debounceRun_chain (ts : List Nat) : ∀ t : Nat,
    List.Chain (fun a b => b < a + DEBOUNCE_MS) t ts →
    debounceRun (some (t + DEBOUNCE_MS)) ts = [ts.getLastD t + DEBOUNCE_MS] := by
  induction ts with
  | nil => intro t _; rfl
  | cons t' ts' ih =>
      intro t h
      rcases h with _ | ⟨hlt, hchain⟩
      have hnot : ¬ t + DEBOUNCE_MS ≤ t' := by omega
      simp only [debounceRun, debounceNotify, if_neg hnot, List.nil_append, List.getLastD_cons]
      exact ih t' hchain

/-- C9: when N filesystem notifications arrive and each one comes
strictly before the pending 100 ms timer expires, the whole burst
produces exactly one read pass, fired 100 ms after the last
notification. -/
theorem debounce_coalesces (t0 : Nat) (ts : List Nat)
    (h : List.Chain (fun a b => b < a + DEBOUNCE_MS) t0 ts) :
    debounceRun none (t0 :: ts) = [ts.getLastD t0 + DEBOUNCE_MS] ∧
    (debounceRun none (t0 :: ts)).length = 1 := by
  have hrun : debounceRun none (t0 :: ts) = debounceRun (some (t0 + DEBOUNCE_MS)) ts := by
    simp [debounceRun, debounceNotify]
  rw [hrun, debounceRun_chain ts t0 h]
  exact ⟨rfl, rfl⟩

/-- C9 witness: three notifications at 0, 10 and 50 ms produce a single
pass at 150 ms. -/
theorem debounce_coalesces_witness :
    debounceRun none [0, 10, 50] = [150] :=
  (debounce_coalesces 0 [10, 50]
    (List.Chain.cons (by decide) (List.Chain.cons (by decide) List.Chain.nil))).1

/-- Helper for C1: a task settles no earlier than it starts. -/
theorem taskStart_le_taskFinish (arrival dur : Nat → Nat) (k : Nat) :
    taskStart arrival dur k ≤ taskFinish arrival dur k := by
  cases k with
  | zero => exact Nat.le_add_right _ _
  | succ k => exact Nat.le_add_right _ _

/-- Helper for C1: every earlier task has settled by the time a later
task starts, because each task is chained onto the previous promise. -/
theorem taskFinish_le_taskStart (arrival dur : Nat → Nat) (j k : Nat) (h : j < k) :
    taskFinish arrival dur j ≤ taskStart arrival dur k := by
  induction k with
  | zero => omega
  | succ k ih =>
      rcases Nat.lt_succ_iff_lt_or_eq.mp h with h' | rfl
      · exact le_trans (le_trans (ih h') (taskStart_le_taskFinish arrival dur k))
          (le_max_right _ _)
      · exact le_max_right _ _

/-- C1: in the queued implementation every new speak request's task is
chained onto the previous request's settled promise, so no two
synthesis-and-playback sequences are ever active at the same time,
whatever the arrival times and task durations. -/
theorem enqueueSpeech_serializes (arrival dur : Nat → Nat) (t j k : Nat) (hjk : j ≠ k) :
    ¬(taskActive arrival dur j t ∧ taskActive arrival dur k t) := by
  rintro ⟨⟨hs1, hf1⟩, hs2, hf2⟩
  rcases Nat.lt_or_ge j k with h | h
  · have := taskFinish_le_taskStart arrival dur j k h
    omega
  · have hkj : k < j := by omega
    have := taskFinish_le_taskStart arrival dur k j hkj
    omega

/-- C1 witness: with both tasks enqueued at time 0 and unit durations,
tasks 0 and 1 are not both active at time 0. -/
theorem enqueueSpeech_serializes_witness :
    ¬(taskActive (fun _ => 0) (fun _ => 1) 0 0 ∧ taskActive (fun _ => 0) (fun _ => 1) 1 0) :=
  enqueueSpeech_serializes (fun _ => 0) (fun _ => 1) 0 0 1 (by decide)

/-- C2 counterexample: in the preemptive implementation a request
cancelled during playback sees two lipsync-stop broadcasts for its single
lipsync-start: one from `stopCurrentPlayback` and one from the killed
process's `close` handler. -/
theorem preemptive_double_stop :
    countStarts preemptCancelTrace = 1 ∧ countStops preemptCancelTrace = 2 := by
  decide

/-- C2 (amended): in the queued implementation (part_004), a request with
no audio artifact broadcasts nothing, and a request whose artifact is
ready broadcasts exactly one lipsync-start (carrying the duration
estimate) before playback begins and exactly one lipsync-stop after
playback ends, whether the playback process closes or errors. -/
theorem speakTask_motion_pairing (st : OrchState) (id : Nat) (req : SpeakRequest) :
    (req.synth = .failBeforeAudio → motionAndPlayEvents (runSpeakTask st id req).2 = []) ∧
    (∀ bytes, req.synth = .audio bytes →
      motionAndPlayEvents (runSpeakTask st id req).2 =
        [.startMotion (getWavDuration bytes), .playBegin id, .playEnd id, .stopMotion]) := by
  constructor
  · intro h
    simp [runSpeakTask, h, motionAndPlayEvents]
  · intro bytes h
    cases hp : req.play <;>
      simp [runSpeakTask, h, hp, motionAndPlayEvents, List.filter]

/-- C2 witness: a request with empty audio bytes and a closing playback
broadcasts start then stop around its playback. -/
theorem speakTask_motion_pairing_witness :
    motionAndPlayEvents (runSpeakTask ⟨[], none⟩ 0 ⟨.audio [], .closed⟩).2 =
      [.startMotion (getWavDuration []), .playBegin 0, .playEnd 0, .stopMotion] :=
  (speakTask_motion_pairing ⟨[], none⟩ 0 ⟨.audio [], .closed⟩).2 [] rfl

/-- Helper for C4: the scan loop returns the size read after the first
`data` tag, provided that tag lies within the scanned index range. -/
theorem scanDataSizeAux_eq_of_first (buf : List Nat) :
    ∀ (fuel i k : Nat), i ≤ k → k < i + fuel →
    isDataTagAt buf k = true →
    (∀ j, i ≤ j → j < k → isDataTagAt buf j = false) →
    scanDataSizeAux buf fuel i = readUInt32LE buf (k + 4) := by
  intro fuel
  induction fuel with
  | zero => intro i k h1 h2 _ _; omega
  | succ fuel ih =>
      intro i k h1 h2 htag hmin
      by_cases hi : isDataTagAt buf i = true
      · have hik : i = k := by
          by_contra hne
          have h3 := hmin i le_rfl (lt_of_le_of_ne h1 hne)
          rw [hi] at h3
          cases h3
        subst hik
        simp [scanDataSizeAux, hi]
      · have hik : i < k := by
          rcases eq_or_lt_of_le h1 with rfl | h
          · exact absurd htag hi
          · exact h
        rw [scanDataSizeAux, if_neg hi]
        exact ih (i + 1) k hik (by omega) htag (fun j hj1 hj2 => hmin j (by omega) hj2)

/-- C4 (amended): `getWavDuration` is total by construction (out-of-range
header reads take the fallback branch of the `try/catch`), and it returns
`floor(dataSize * 1000 / byteRate)` exactly when the byte rate at offset
28 is nonzero and the first `data` tag lies at an index `i` with
`i < length - 8` (at least one byte after the 4-byte size field, as in
any canonical buffer with a nonzero payload) and carries a nonzero size;
in the remaining cases — short buffer, no tag found by the scan, zero
size, zero byte rate — it returns the fallback 2000 ms. -/
theorem getWavDuration_spec (buf : List Nat) :
    (∀ br i s, readUInt32LE buf 28 = some br → br ≠ 0 →
      i < buf.length - 8 → isDataTagAt buf i = true →
      (∀ j, j < i → isDataTagAt buf j = false) →
      readUInt32LE buf (i + 4) = some s → s ≠ 0 →
      getWavDuration buf = s * 1000 / br) ∧
    (readUInt32LE buf 28 = none → getWavDuration buf = DEFAULT_AUDIO_DURATION_MS) ∧
    (scanDataSize buf = none → getWavDuration buf = DEFAULT_AUDIO_DURATION_MS) ∧
    (∀ br s, readUInt32LE buf 28 = some br → scanDataSize buf = some s →
      s = 0 ∨ br = 0 → getWavDuration buf = DEFAULT_AUDIO_DURATION_MS) := by
  refine ⟨?_, ?_, ?_, ?_⟩
  · intro br i s hbr hbr0 hi htag hfirst hs hs0
    have hscan : scanDataSize buf = some s := by
      rw [scanDataSize,
        scanDataSizeAux_eq_of_first buf (buf.length - 8) 0 i (Nat.zero_le i) (by omega)
          htag (fun j _ hj => hfirst j hj)]
      exact hs
    rw [getWavDuration, hbr, hscan]
    simp [hs0, hbr0]
  · intro h
    rw [getWavDuration, h]
  · intro h
    rw [getWavDuration]
    cases hbr : readUInt32LE buf 28 with
    | none => rfl
    | some br => rw [h]
  · intro br s hbr hscan hz
    rw [getWavDuration, hbr, hscan]
    rcases hz with rfl | rfl <;> simp

/-- C4 witness: on the canonical buffer with byte rate 4 and first tag
at index 36 carrying size 9, the estimator returns `9 * 1000 / 4`. -/
theorem getWavDuration_spec_witness :
    getWavDuration wavExample = 9 * 1000 / 4 :=
  (getWavDuration_spec wavExample).1 4 36 9 (by decide) (by decide) (by decide)
    (by decide) (by decide) (by decide) (by decide)

/-- C4 counterexample: `c4Buffer` has a nonzero byte rate at offset 28
and contains a `data` tag (at index 32) followed by the nonzero 32-bit
size 1000, yet the estimator returns the fallback 2000 rather than
`1000 * 1000 / 1 = 1000000`, because the scan stops at index
`length - 8 = 32` and never inspects the tag. -/
theorem getWavDuration_missed_tag :
    readUInt32LE c4Buffer 28 = some 1 ∧
    isDataTagAt c4Buffer 32 = true ∧
    readUInt32LE c4Buffer 36 = some 1000 ∧
    getWavDuration c4Buffer = 2000 ∧
    getWavDuration c4Buffer ≠ 1000 * 1000 / 1 := by
  decide

/-- Helper for C3: one parse pass only grows the processed list, records
every forwarded uuid in it, forwards no uuid that was already processed,
and forwards pairwise-distinct uuids. -/
theorem processLines_spec (lines : List RawLine) : ∀ procd : List String,
    (∀ u, u ∈ procd → u ∈ (processLines procd lines).1) ∧
    (∀ u, u ∈ forwardedUuids (processLines procd lines).2 → u ∈ (processLines procd lines).1) ∧
    (∀ u, u ∈ procd → u ∉ forwardedUuids (processLines procd lines).2) ∧
    (forwardedUuids (processLines procd lines).2).Nodup := by
  induction lines with
  | nil =>
      intro procd
      refine ⟨fun u h => h, ?_, ?_, ?_⟩ <;> simp [processLines, forwardedUuids]
  | cons hd rest ih =>
      intro procd
      match hd with
      | none => simpa only [processLines] using ih procd
      | some l =>
          by_cases hc :
              (l.type == "assistant" && l.role == some "assistant" && !procd.contains l.uuid) = true
          · rw [processLines]
            rw [if_pos hc]
            have hnotin : l.uuid ∉ procd := by
              have h1 := (Bool.and_eq_true _ _).mp hc |>.2
              rw [Bool.not_eq_eq_eq_not, Bool.not_true] at h1
              intro hmem
              have h2 : procd.contains l.uuid = true :=
                List.contains_iff_exists_mem_beq.mpr ⟨l.uuid, hmem, by simp⟩
              rw [h1] at h2
              cases h2
            cases hext : extractTextFromContent l.content with
            | none => exact ih procd
            | some t =>
                obtain ⟨ih1, ih2, ih3, ih4⟩ := ih (l.uuid :: procd)
                refine ⟨?_, ?_, ?_, ?_⟩
                · intro u hu
                  exact ih1 u (List.mem_cons_of_mem _ hu)
                · intro u hu
                  simp only [forwardedUuids, List.map_cons] at hu
                  rcases List.mem_cons.mp hu with rfl | hu'
                  · exact ih1 _ (List.mem_cons_self _ _)
                  · exact ih2 u hu'
                · intro u hu
                  simp only [forwardedUuids, List.map_cons]
                  intro hmem
                  rcases List.mem_cons.mp hmem with rfl | hmem'
                  · exact hnotin hu
                  · exact ih3 u (List.mem_cons_of_mem _ hu) hmem'
                · simp only [forwardedUuids, List.map_cons]
                  exact List.nodup_cons.mpr ⟨ih3 l.uuid (List.mem_cons_self _ _), ih4⟩
          · rw [processLines]
            rw [if_neg hc]
            exact ih procd

/-- C3: across any sequence of read passes (including passes that
re-scan bytes already seen), a uuid already processed is never forwarded,
every forwarded uuid ends up recorded in the processed set, and no uuid
is forwarded more than once for the lifetime of the run. -/
theorem tailer_forwards_once (procd0 : List String) (passes : List (List RawLine)) :
    (∀ u, u ∈ procd0 → u ∈ (runPasses procd0 passes).1) ∧
    (∀ u, u ∈ forwardedUuids (runPasses procd0 passes).2 → u ∈ (runPasses procd0 passes).1) ∧
    (∀ u, u ∈ procd0 → u ∉ forwardedUuids (runPasses procd0 passes).2) ∧
    (forwardedUuids (runPasses procd0 passes).2).Nodup ∧
    (∀ u, (forwardedUuids (runPasses procd0 passes).2).count u ≤ 1) := by
  suffices h :
      (∀ u, u ∈ procd0 → u ∈ (runPasses procd0 passes).1) ∧
      (∀ u, u ∈ forwardedUuids (runPasses procd0 passes).2 → u ∈ (runPasses procd0 passes).1) ∧
      (∀ u, u ∈ procd0 → u ∉ forwardedUuids (runPasses procd0 passes).2) ∧
      (forwardedUuids (runPasses procd0 passes).2).Nodup by
    exact ⟨h.1, h.2.1, h.2.2.1, h.2.2.2,
      fun u => List.nodup_iff_count_le_one.mp h.2.2.2 u⟩
  induction passes generalizing procd0 with
  | nil =>
      refine ⟨fun u h => h, ?_, ?_, ?_⟩ <;> simp [runPasses, forwardedUuids]
  | cons pass rest ih =>
      obtain ⟨p1, p2, p3, p4⟩ := processLines_spec pass procd0
      obtain ⟨r1, r2, r3, r4⟩ := ih (processLines procd0 pass).1
      have hsplit :
          forwardedUuids (runPasses procd0 (pass :: rest)).2 =
            forwardedUuids (processLines procd0 pass).2 ++
              forwardedUuids (runPasses (processLines procd0 pass).1 rest).2 := by
        simp [runPasses, forwardedUuids]
      have hfst : (runPasses procd0 (pass :: rest)).1 =
          (runPasses (processLines procd0 pass).1 rest).1 := rfl
      refine ⟨?_, ?_, ?_, ?_⟩
      · intro u hu
        rw [hfst]
        exact r1 u (p1 u hu)
      · intro u hu
        rw [hfst]
        rw [hsplit] at hu
        rcases List.mem_append.mp hu with h1 | h1
        · exact r1 u (p2 u h1)
        · exact r2 u h1
      · intro u hu
        rw [hsplit]
        intro hmem
        rcases List.mem_append.mp hmem with h1 | h1
        · exact p3 u hu h1
        · exact r3 u (p1 u hu) h1
      · rw [hsplit]
        refine List.Nodup.append p4 r4 ?_
        intro u h1 h2
        exact r3 u (p2 u h1) h2

/-- C3 witness: after a pass forwards the message with uuid `x1`, a
second pass over the same bytes forwards nothing. -/
theorem tailer_forwards_once_witness :
    forwardedUuids
      (runPasses []
        [[some ⟨"assistant", "x1", some "assistant", [⟨"text", some "hi"⟩]⟩],
         [some ⟨"assistant", "x1", some "assistant", [⟨"text", some "hi"⟩]⟩]]).2 = ["x1"] ∧
    ("x1" ∈ (runPasses []
        [[some ⟨"assistant", "x1", some "assistant", [⟨"text", some "hi"⟩]⟩],
         [some ⟨"assistant", "x1", some "assistant", [⟨"text", some "hi"⟩]⟩]]).1) ∧
    (forwardedUuids
      (runPasses []
        [[some ⟨"assistant", "x1", some "assistant", [⟨"text", some "hi"⟩]⟩],
         [some ⟨"assistant", "x1", some "assistant", [⟨"text", some "hi"⟩]⟩]]).2).count "x1" ≤ 1 := by
  refine ⟨by decide, ?_, ?_⟩
  · exact (tailer_forwards_once []
      [[some ⟨"assistant", "x1", some "assistant", [⟨"text", some "hi"⟩]⟩],
       [some ⟨"assistant", "x1", some "assistant", [⟨"text", some "hi"⟩]⟩]]).2.1 "x1" (by decide)
  · exact (tailer_forwards_once []
      [[some ⟨"assistant", "x1", some "assistant", [⟨"text", some "hi"⟩]⟩],
       [some ⟨"assistant", "x1", some "assistant", [⟨"text", some "hi"⟩]⟩]]).2.2.2.2 "x1"

/-- Helper for C6: every request of the serialized queue executes —
whatever the outcomes of the requests around it — and a request whose
artifact is ready contributes its lipsync-start broadcast to the trace. -/
theorem runSpeakQueue_runs_every_request (reqs : List SpeakRequest) :
    ∀ (st : OrchState) (id k : Nat) (bytes : List Nat) (p : PlayResult),
    reqs[k]? = some ⟨.audio bytes, p⟩ →
    Ev.startMotion (getWavDuration bytes) ∈ (runSpeakQueue st id reqs).2 := by
  induction reqs with
  | nil => intro st id k bytes p h; simp at h
  | cons req rest ih =>
      intro st id k bytes p h
      cases k with
      | zero =>
          rw [List.getElem?_cons_zero, Option.some_inj] at h
          subst h
          rw [runSpeakQueue]
          apply List.mem_append_left
          cases p <;> simp [runSpeakTask]
      | succ k =>
          rw [runSpeakQueue]
          apply List.mem_append_right
          exact ih _ _ k bytes p (by simpa using h)

/-- C6: connection-refused is caught and logged without rethrowing; a
non-2xx status from either synthesis fetch throws an error that the catch
block rethrows, a hard failure of that request; an abort is logged as an
informational cancellation, an outcome distinct from the error log; and
in the serialized queue every request still runs regardless of how the
others fail. -/
theorem speech_error_handling :
    voicevoxCatch .fetchConnRefused = .logErrorReturn ∧
    voicevoxCatch .abortError = .logInfoReturn ∧
    CatchOutcome.logInfoReturn ≠ CatchOutcome.logErrorReturn ∧
    CatchOutcome.logInfoReturn ≠ CatchOutcome.rethrow ∧
    (∀ qs ss e, synthHttpError qs ss = some e → voicevoxCatch e = .rethrow) ∧
    (∀ (st : OrchState) (id : Nat) (reqs : List SpeakRequest) (k : Nat) bytes p,
      reqs[k]? = some ⟨.audio bytes, p⟩ →
      Ev.startMotion (getWavDuration bytes) ∈ (runSpeakQueue st id reqs).2) := by
  refine ⟨rfl, rfl, by decide, by decide, ?_, ?_⟩
  · intro qs ss e h
    rw [synthHttpError] at h
    split at h
    · cases h; rfl
    · split at h
      · cases h; rfl
      · cases h
  · intro st id reqs k bytes p h
    exact runSpeakQueue_runs_every_request reqs st id k bytes p h

/-- C6 witness: a 500 from the audio query is rethrown, and the second
request of a queue whose first request fails still broadcasts its
lipsync-start. -/
theorem speech_error_handling_witness :
    voicevoxCatch (.httpNotOk .audioQuery 500) = .rethrow ∧
    Ev.startMotion (getWavDuration []) ∈
      (runSpeakQueue ⟨[], none⟩ 0 [⟨.failBeforeAudio, .closed⟩, ⟨.audio [], .closed⟩]).2 :=
  ⟨speech_error_handling.2.2.2.2.1 500 200 (.httpNotOk .audioQuery 500) rfl,
   speech_error_handling.2.2.2.2.2 ⟨[], none⟩ 0
     [⟨.failBeforeAudio, .closed⟩, ⟨.audio [], .closed⟩] 1 [] .closed rfl⟩

/-- C7 counterexample: after two requests whose playback processes error,
both temp files are still on disk — the error handler never unlinks and
the quit handler only stops the watcher and the server — so two backing
files coexist and neither is cleaned up on failure or shutdown. -/
theorem tempfile_leak :
    ((runSpeakQueue ⟨[], none⟩ 0 [⟨.audio [], .errored⟩, ⟨.audio [], .errored⟩]).1).disk = [0, 1] ∧
    (quitApp ⟨(runSpeakQueue ⟨[], none⟩ 0
        [⟨.audio [], .errored⟩, ⟨.audio [], .errored⟩]).1, true, true⟩).orch.disk = [0, 1] := by
  decide

/-- Helper for C7: replaying file events distributes over trace
concatenation. -/
theorem diskOf_append (l1 l2 : List Ev) : ∀ d, diskOf (l1 ++ l2) d = diskOf l2 (diskOf l1 d) := by
  induction l1 with
  | nil => intro d; rfl
  | cons e r ih => intro d; cases e <;> simp [diskOf, ih]

/-- Helper for C7: along the trace of one artifact-producing request that
ends in the close handler, at most one temp file is ever on disk. -/
theorem taskTraceClosed_disk (id d : Nat) :
    ∀ n, (diskOf (([Ev.fileWrite id, .startMotion d, .playBegin id, .playEnd id,
      .stopMotion, .fileUnlink id]).take n) []).length ≤ 1 := by
  intro n
  rcases n with _ | _ | _ | _ | _ | _ | n <;>
    simp [diskOf, List.take_succ_cons, List.take_zero]

/-- Helper for C7: from a clean state, a queue of requests whose
playbacks all close returns to the clean state, keeps at most one temp
file on disk at every point of its trace, and ends with an empty disk. -/
theorem runSpeakQueue_closed (reqs : List SpeakRequest) (h : ∀ r ∈ reqs, r.play = .closed) :
    ∀ id, (runSpeakQueue ⟨[], none⟩ id reqs).1 = ⟨[], none⟩ ∧
      (∀ n, (diskOf ((runSpeakQueue ⟨[], none⟩ id reqs).2.take n) []).length ≤ 1) ∧
      diskOf ((runSpeakQueue ⟨[], none⟩ id reqs).2) [] = [] := by
  induction reqs with
  | nil => intro id; refine ⟨rfl, ?_, rfl⟩; intro n; simp [runSpeakQueue, diskOf]
  | cons req rest ih =>
      intro id
      have hreq : req.play = .closed := h req (List.mem_cons_self _ _)
      have hrest : ∀ r ∈ rest, r.play = .closed := fun r hr => h r (List.mem_cons_of_mem _ hr)
      obtain ⟨ih1, ih2, ih3⟩ := ih hrest (id + 1)
      cases hsyn : req.synth with
      | failBeforeAudio =>
          have htask : runSpeakTask ⟨[], none⟩ id req = (⟨[], none⟩, []) := by
            rw [runSpeakTask, hsyn]
          refine ⟨?_, ?_, ?_⟩ <;> simp only [runSpeakQueue, htask, List.nil_append]
          · exact ih1
          · exact ih2
          · exact ih3
      | audio bytes =>
          have htask : runSpeakTask ⟨[], none⟩ id req =
              (⟨[], none⟩, [Ev.fileWrite id, .startMotion (getWavDuration bytes),
                .playBegin id, .playEnd id, .stopMotion, .fileUnlink id]) := by
            rw [runSpeakTask, hsyn, hreq]
            simp [List.erase_cons_head]
          refine ⟨?_, ?_, ?_⟩
          · simp only [runSpeakQueue, htask]
            exact ih1
          · intro n
            simp only [runSpeakQueue, htask]
            rw [List.take_append_eq_append_take, diskOf_append]
            by_cases hn : n ≤ 6
            · have h0 : n - (List.length [Ev.fileWrite id, .startMotion (getWavDuration bytes),
                  .playBegin id, .playEnd id, .stopMotion, .fileUnlink id]) = 0 := by
                simp
                omega
              rw [h0, List.take_zero]
              exact taskTraceClosed_disk id (getWavDuration bytes) n
            · have ht : List.take n [Ev.fileWrite id, .startMotion (getWavDuration bytes),
                  .playBegin id, .playEnd id, .stopMotion, .fileUnlink id] =
                  [Ev.fileWrite id, .startMotion (getWavDuration bytes),
                    .playBegin id, .playEnd id, .stopMotion, .fileUnlink id] :=
                List.take_of_length_le (by simp; omega)
              rw [ht]
              have hfull : diskOf [Ev.fileWrite id, .startMotion (getWavDuration bytes),
                  .playBegin id, .playEnd id, .stopMotion, .fileUnlink id] [] = [] := by
                simp [diskOf, List.erase_cons_head]
              rw [hfull]
              exact ih2 _
          · simp only [runSpeakQueue, htask]
            rw [diskOf_append]
            have hfull : diskOf [Ev.fileWrite id, .startMotion (getWavDuration bytes),
                .playBegin id, .playEnd id, .stopMotion, .fileUnlink id] [] = [] := by
              simp [diskOf, List.erase_cons_head]
            rw [hfull]
            exact ih3

/-- C7 (amended): starting from a clean state, as long as every playback
process ends through its close handler, at most one temp file is on disk
at any point of the run, every request's file is deleted by the time its
playback completes (the final disk is empty), and the quit handler —
which closes the watcher and server but touches no file — leaves nothing
behind.  (The counterexample shows the unqualified claim fails: an
erroring playback leaks its file and shutdown does not remove it.) -/
theorem tempfile_lifecycle (reqs : List SpeakRequest)
    (h : ∀ r ∈ reqs, r.play = .closed) (id : Nat) :
    (∀ n, (diskOf ((runSpeakQueue ⟨[], none⟩ id reqs).2.take n) []).length ≤ 1) ∧
    diskOf ((runSpeakQueue ⟨[], none⟩ id reqs).2) [] = [] ∧
    (quitApp ⟨(runSpeakQueue ⟨[], none⟩ id reqs).1, true, true⟩).orch.disk = [] := by
  obtain ⟨h1, h2, h3⟩ := runSpeakQueue_closed reqs h id
  refine ⟨h2, h3, ?_⟩
  rw [h1]
  rfl


/-- C7 witness: a single request with a closing playback leaves an empty
disk behind. -/
theorem tempfile_lifecycle_witness :
    diskOf ((runSpeakQueue ⟨[], none⟩ 0 [⟨.audio [], .closed⟩]).2) [] = [] :=
  (tempfile_lifecycle [⟨.audio [], .closed⟩] (by intro r hr; simp at hr; rw [hr]) 0).2.1

/-- Helper for C8: filtering out the entries of key `f` does not change
a lookup by a different key `g`. -/
theorem find?_key_filter_ne (ps : List (String × Nat)) (f g : String) (h : g ≠ f) :
    (List.filter (fun e => !(e.1 == f)) ps).find? (fun e => e.1 == g) =
      ps.find? (fun e => e.1 == g) := by
  induction ps with
  | nil => rfl
  | cons a ps ih =>
      by_cases haf : (a.1 == f) = true
      · have hag : (a.1 == g) = false := by
          have haf' : a.1 = f := eq_of_beq haf
          rw [haf', beq_eq_false_iff_ne]
          exact fun hh => h hh.symm
        have h1 : List.filter (fun e => !(e.1 == f)) (a :: ps) =
            List.filter (fun e => !(e.1 == f)) ps := by
          rw [List.filter_cons]
          simp [haf]
        have h2 : List.find? (fun e => e.1 == g) (a :: ps) =
            List.find? (fun e => e.1 == g) ps :=
          List.find?_cons_of_neg ps (by simp [hag])
        rw [h1, h2, ih]
      · have h1 : List.filter (fun e => !(e.1 == f)) (a :: ps) =
            a :: List.filter (fun e => !(e.1 == f)) ps := by
          rw [List.filter_cons]
          simp [haf]
        rw [h1]
        by_cases hag : (a.1 == g) = true
        · have h2 : List.find? (fun e => e.1 == g)
              (a :: List.filter (fun e => !(e.1 == f)) ps) = some a :=
            List.find?_cons_of_pos _ hag
          have h3 : List.find? (fun e => e.1 == g) (a :: ps) = some a :=
            List.find?_cons_of_pos _ hag
          rw [h2, h3]
        · have h2 : List.find? (fun e => e.1 == g)
              (a :: List.filter (fun e => !(e.1 == f)) ps) =
              List.find? (fun e => e.1 == g) (List.filter (fun e => !(e.1 == f)) ps) :=
            List.find?_cons_of_neg _ hag
          have h3 : List.find? (fun e => e.1 == g) (a :: ps) =
              List.find? (fun e => e.1 == g) ps :=
            List.find?_cons_of_neg _ hag
          rw [h2, h3, ih]

/-- Helper for C8: after `filePositions.set(f, n)` the offset of `f` is `n`. -/
theorem lookupPos_setPos_self (ps : List (String × Nat)) (f : String) (n : Nat) :
    lookupPos (setPos ps f n) f = n := by
  rw [lookupPos, setPos, List.find?_append]
  have h1 : (List.filter (fun e => !(e.1 == f)) ps).find? (fun e => e.1 == f) = none := by
    rw [List.find?_eq_none]
    intro x hx
    have hmem := (List.mem_filter.mp hx).2
    simp only [Bool.not_eq_eq_eq_not, Bool.not_true] at hmem
    simp [hmem]
  rw [h1]
  simp

/-- Helper for C8: `filePositions.set(f, n)` does not change the offset
of any other file. -/
theorem lookupPos_setPos_ne (ps : List (String × Nat)) (f g : String) (n : Nat) (h : g ≠ f) :
    lookupPos (setPos ps f n) g = lookupPos ps g := by
  rw [lookupPos, setPos, List.find?_append, find?_key_filter_ne ps f g h]
  have h2 : List.find? (fun e => e.1 == g) [(f, n)] = none := by
    have hfg : (f == g) = false := by
      rw [beq_eq_false_iff_ne]
      exact fun hh => h hh.symm
    simp [hfg]
  rw [h2, Option.or_none]
  rfl

/-- Helper for C8: a pass over a file that has not grown reads nothing
and leaves the offsets unchanged. -/
theorem processNewLinesPass_no_read (ps : List (String × Nat)) (f : String) (size : Nat)
    (h : size ≤ lookupPos ps f) : processNewLinesPass ps f size = (ps, none) := by
  rw [processNewLinesPass, if_pos h]

/-- Helper for C8: a pass over a grown file stores the observed size as
the new offset and reads exactly the bytes from the old offset to that
size. -/
theorem processNewLinesPass_read (ps : List (String × Nat)) (f : String) (size : Nat)
    (h : ¬ size ≤ lookupPos ps f) :
    processNewLinesPass ps f size = (setPos ps f size, some (lookupPos ps f, size)) := by
  rw [processNewLinesPass, if_neg h]

/-- Helper for C8: a cycle that sees no session file and has none does
nothing. -/
theorem tailerCycle_none_none (st : TailerState) (d : DirSnapshot)
    (hl : d.latest = none) (hc : st.current = none) :
    tailerCycle st d = (st, none) := by
  simp [tailerCycle, hl, hc]

/-- Helper for C8: a cycle that sees no session file keeps tailing the
current one. -/
theorem tailerCycle_none_some (st : TailerState) (d : DirSnapshot) (f : String)
    (hl : d.latest = none) (hc : st.current = some f) :
    tailerCycle st d =
      (⟨(processNewLinesPass st.positions f (d.size f)).1, some f⟩,
        ((processNewLinesPass st.positions f (d.size f)).2).map fun rng => (f, rng.1, rng.2)) := by
  simp [tailerCycle, hl, hc]

/-- Helper for C8: evaluation of a cycle that rotates to a new latest
file. -/
theorem tailerCycle_rotation_eq (st : TailerState) (d : DirSnapshot) (lf : String)
    (hl : d.latest = some lf) (hc : st.current ≠ some lf) :
    tailerCycle st d =
      (⟨(processNewLinesPass (setPos st.positions lf 0) lf (d.size lf)).1, some lf⟩,
        ((processNewLinesPass (setPos st.positions lf 0) lf (d.size lf)).2).map
          fun rng => (lf, rng.1, rng.2)) := by
  rw [tailerCycle, hl]
  simp [hc]

/-- Helper for C8: evaluation of a cycle whose latest file is already the
current one. -/
theorem tailerCycle_no_rotation_eq (st : TailerState) (d : DirSnapshot) (lf : String)
    (hl : d.latest = some lf) (hc : st.current = some lf) :
    tailerCycle st d =
      (⟨(processNewLinesPass st.positions lf (d.size lf)).1, some lf⟩,
        ((processNewLinesPass st.positions lf (d.size lf)).2).map
          fun rng => (lf, rng.1, rng.2)) := by
  rw [tailerCycle, hl]
  simp [hc]

/-- Helper for C8: one pass never decreases any stored offset. -/
theorem processNewLinesPass_mono (ps : List (String × Nat)) (f : String) (size : Nat)
    (g : String) : lookupPos ps g ≤ lookupPos (processNewLinesPass ps f size).1 g := by
  by_cases hsz : size ≤ lookupPos ps f
  · rw [processNewLinesPass_no_read _ _ _ hsz]
  · rw [processNewLinesPass_read _ _ _ hsz]
    by_cases hg : g = f
    · subst hg
      rw [lookupPos_setPos_self]
      omega
    · rw [lookupPos_setPos_ne _ _ _ _ hg]

/-- Helper for C8: a pass that reads `[a, b)` read from the stored offset
up to the observed size, and stored that size. -/
theorem processNewLinesPass_range (ps : List (String × Nat)) (f : String) (size : Nat)
    (a b : Nat) (h : (processNewLinesPass ps f size).2 = some (a, b)) :
    a = lookupPos ps f ∧ b = size ∧
    lookupPos (processNewLinesPass ps f size).1 f = size ∧ a < b := by
  by_cases hsz : size ≤ lookupPos ps f
  · rw [processNewLinesPass_no_read _ _ _ hsz] at h
    cases h
  · rw [processNewLinesPass_read _ _ _ hsz] at h ⊢
    injection h with h
    have ha : a = lookupPos ps f := (congrArg Prod.fst h).symm
    have hb : b = size := (congrArg Prod.snd h).symm
    refine ⟨ha, hb, lookupPos_setPos_self _ _ _, ?_⟩
    rw [ha, hb]
    omega

/-- Helper for C8: when a cycle reads `[a, b)` of file `f`, the file is
current afterwards, its stored offset equals the end of the range, and
the range is nonempty. -/
theorem tailerCycle_read_lookup (st : TailerState) (d : DirSnapshot) (f : String)
    (a b : Nat) (hr : (tailerCycle st d).2 = some (f, a, b)) :
    (tailerCycle st d).1.current = some f ∧
    lookupPos (tailerCycle st d).1.positions f = b ∧ a < b := by
  rcases hlat : d.latest with _ | lf
  · rcases hcur : st.current with _ | g
    · rw [tailerCycle_none_none st d hlat hcur] at hr
      cases hr
    · rw [tailerCycle_none_some st d g hlat hcur] at hr ⊢
      cases hp : (processNewLinesPass st.positions g (d.size g)).2 with
      | none => rw [hp] at hr; cases hr
      | some rng =>
          rw [hp] at hr
          simp only [Option.map_some] at hr
          injection hr with hr
          have hgf : g = f := congrArg Prod.fst hr
          subst hgf
          have hab : rng = (a, b) := by
            have h1 := congrArg Prod.snd hr
            exact Prod.ext (congrArg Prod.fst h1) (congrArg Prod.snd h1)
          subst hab
          obtain ⟨_, hb, hl, hab⟩ := processNewLinesPass_range _ _ _ _ _ hp
          exact ⟨rfl, by rw [hl, hb], hab⟩
  · by_cases hrot : st.current = some lf
    · rw [tailerCycle_no_rotation_eq st d lf hlat hrot] at hr ⊢
      cases hp : (processNewLinesPass st.positions lf (d.size lf)).2 with
      | none => rw [hp] at hr; cases hr
      | some rng =>
          rw [hp] at hr
          simp only [Option.map_some] at hr
          injection hr with hr
          have hgf : lf = f := congrArg Prod.fst hr
          subst hgf
          have hab : rng = (a, b) := by
            have h1 := congrArg Prod.snd hr
            exact Prod.ext (congrArg Prod.fst h1) (congrArg Prod.snd h1)
          subst hab
          obtain ⟨_, hb, hl, hab⟩ := processNewLinesPass_range _ _ _ _ _ hp
          exact ⟨rfl, by rw [hl, hb], hab⟩
    · rw [tailerCycle_rotation_eq st d lf hlat hrot] at hr ⊢
      cases hp : (processNewLinesPass (setPos st.positions lf 0) lf (d.size lf)).2 with
      | none => rw [hp] at hr; cases hr
      | some rng =>
          rw [hp] at hr
          simp only [Option.map_some] at hr
          injection hr with hr
          have hgf : lf = f := congrArg Prod.fst hr
          subst hgf
          have hab : rng = (a, b) := by
            have h1 := congrArg Prod.snd hr
            exact Prod.ext (congrArg Prod.fst h1) (congrArg Prod.snd h1)
          subst hab
          obtain ⟨_, hb, hl, hab⟩ := processNewLinesPass_range _ _ _ _ _ hp
          exact ⟨rfl, by rw [hl, hb], hab⟩

/-- Helper for C8: a read of the already-current file starts at its
stored offset. -/
theorem tailerCycle_read_start (st : TailerState) (d : DirSnapshot) (f : String)
    (a b : Nat) (hcur : st.current = some f)
    (hr : (tailerCycle st d).2 = some (f, a, b)) : a = lookupPos st.positions f := by
  rcases hlat : d.latest with _ | lf
  · rw [tailerCycle_none_some st d f hlat hcur] at hr
    cases hp : (processNewLinesPass st.positions f (d.size f)).2 with
    | none => rw [hp] at hr; cases hr
    | some rng =>
        rw [hp] at hr
        simp only [Option.map_some] at hr
        injection hr with hr
        have h1 := congrArg Prod.snd hr
        have ha : rng.1 = a := congrArg Prod.fst h1
        obtain ⟨ha', _, _, _⟩ := processNewLinesPass_range _ _ _ rng.1 rng.2 (by rw [hp])
        rw [← ha, ha']
  · by_cases hrot : st.current = some lf
    · have hlf : lf = f := by
        rw [hcur] at hrot
        exact (Option.some_inj.mp hrot).symm
      subst hlf
      rw [tailerCycle_no_rotation_eq st d lf hlat hrot] at hr
      cases hp : (processNewLinesPass st.positions lf (d.size lf)).2 with
      | none => rw [hp] at hr; cases hr
      | some rng =>
          rw [hp] at hr
          simp only [Option.map_some] at hr
          injection hr with hr
          have h1 := congrArg Prod.snd hr
          have ha : rng.1 = a := congrArg Prod.fst h1
          obtain ⟨ha', _, _, _⟩ := processNewLinesPass_range _ _ _ rng.1 rng.2 (by rw [hp])
          rw [← ha, ha']
    · rw [tailerCycle_rotation_eq st d lf hlat hrot] at hr
      cases hp : (processNewLinesPass (setPos st.positions lf 0) lf (d.size lf)).2 with
      | none => rw [hp] at hr; cases hr
      | some rng =>
          rw [hp] at hr
          simp only [Option.map_some] at hr
          injection hr with hr
          have hlf : lf = f := congrArg Prod.fst hr
          rw [hlf] at hrot
          exact absurd hcur hrot

/-- Helper for C8: without a rotation, no stored offset ever decreases. -/
theorem tailerCycle_no_rotation_mono (st : TailerState) (d : DirSnapshot)
    (hnr : d.latest = st.current ∨ d.latest = none) (g : String) :
    lookupPos st.positions g ≤ lookupPos (tailerCycle st d).1.positions g := by
  rcases hcur : st.current with _ | f
  · have hl : d.latest = none := by
      rcases hnr with h | h
      · rw [h, hcur]
      · exact h
    rw [tailerCycle_none_none st d hl hcur]
  · rcases hnr with hl | hl
    · rw [hcur] at hl
      rw [tailerCycle_no_rotation_eq st d f hl hcur]
      exact processNewLinesPass_mono _ _ _ g
    · rw [tailerCycle_none_some st d f hl hcur]
      exact processNewLinesPass_mono _ _ _ g

/-- Helper for C8: without a rotation, a read covers exactly the bytes
from the stored offset to the size observed by the metadata query, and
that size is stored as the new offset (before any parsing happens). -/
theorem tailerCycle_no_rotation_range (st : TailerState) (d : DirSnapshot)
    (hnr : d.latest = st.current ∨ d.latest = none) (f : String) (a b : Nat)
    (hr : (tailerCycle st d).2 = some (f, a, b)) :
    a = lookupPos st.positions f ∧ b = d.size f ∧
    lookupPos (tailerCycle st d).1.positions f = d.size f := by
  rcases hcur : st.current with _ | g
  · have hl : d.latest = none := by
      rcases hnr with h | h
      · rw [h, hcur]
      · exact h
    rw [tailerCycle_none_none st d hl hcur] at hr
    cases hr
  · have heval : tailerCycle st d =
        (⟨(processNewLinesPass st.positions g (d.size g)).1, some g⟩,
          ((processNewLinesPass st.positions g (d.size g)).2).map fun rng => (g, rng.1, rng.2)) := by
      rcases hnr with hl | hl
      · rw [hcur] at hl
        exact tailerCycle_no_rotation_eq st d g hl hcur
      · exact tailerCycle_none_some st d g hl hcur
    rw [heval] at hr ⊢
    cases hp : (processNewLinesPass st.positions g (d.size g)).2 with
    | none => rw [hp] at hr; cases hr
    | some rng =>
        rw [hp] at hr
        simp only [Option.map_some] at hr
        injection hr with hr
        have hgf : g = f := congrArg Prod.fst hr
        subst hgf
        have hab : rng = (a, b) :=
          Prod.ext (congrArg Prod.fst (congrArg Prod.snd hr))
            (congrArg Prod.snd (congrArg Prod.snd hr))
        subst hab
        obtain ⟨h1, h2, h3, _⟩ := processNewLinesPass_range _ _ _ a b hp
        exact ⟨h1, h2, h3⟩

/-- Helper for C8: a rotation adopts the new latest file with offset 0,
so the whole content of the new file is read. -/
theorem tailerCycle_rotation_spec (st : TailerState) (d : DirSnapshot) (lf : String)
    (hl : d.latest = some lf) (hc : st.current ≠ some lf) :
    (tailerCycle st d).1.current = some lf ∧
    (d.size lf = 0 → (tailerCycle st d).2 = none) ∧
    (d.size lf ≠ 0 → (tailerCycle st d).2 = some (lf, 0, d.size lf)) := by
  rw [tailerCycle_rotation_eq st d lf hl hc]
  have h0 : lookupPos (setPos st.positions lf 0) lf = 0 := lookupPos_setPos_self _ _ _
  refine ⟨rfl, ?_, ?_⟩
  · intro hz
    rw [processNewLinesPass_no_read _ _ _ (by rw [h0]; omega)]
    rfl
  · intro hz
    rw [processNewLinesPass_read _ _ _ (by rw [h0]; omega)]
    simp [h0]

/-- C8: each read pass stores the size observed by the metadata query as
the new offset and reads exactly the bytes from the old offset to that
size, the stored offsets never depend on the parse results (so a parse
failure cannot cause reprocessing) and never decrease while the latest
file is unchanged, consecutive reads of the same current file touch
disjoint byte ranges, and a rotation adopts the new file at offset 0 with
its whole content read. -/
theorem tailer_offset_discipline (st : TailerState) (d : DirSnapshot) :
    (∀ procd rl1 rl2,
      ((tailerCycleFull procd st d rl1).1).2 = ((tailerCycleFull procd st d rl2).1).2) ∧
    (d.latest = st.current ∨ d.latest = none →
      (∀ g, lookupPos st.positions g ≤ lookupPos (tailerCycle st d).1.positions g) ∧
      (∀ f a b, (tailerCycle st d).2 = some (f, a, b) →
        a = lookupPos st.positions f ∧ b = d.size f ∧
        lookupPos (tailerCycle st d).1.positions f = d.size f)) ∧
    (∀ lf, d.latest = some lf → st.current ≠ some lf →
      (tailerCycle st d).1.current = some lf ∧
      (d.size lf = 0 → (tailerCycle st d).2 = none) ∧
      (d.size lf ≠ 0 → (tailerCycle st d).2 = some (lf, 0, d.size lf))) ∧
    (∀ d2 f a1 b1 a2 b2, (tailerCycle st d).2 = some (f, a1, b1) →
      (tailerCycle (tailerCycle st d).1 d2).2 = some (f, a2, b2) → b1 ≤ a2) := by
  refine ⟨?_, ?_, ?_, ?_⟩
  · intro procd rl1 rl2
    cases h : (tailerCycle st d).2 <;> simp [tailerCycleFull, h]
  · intro hnr
    exact ⟨tailerCycle_no_rotation_mono st d hnr,
      fun f a b hr => tailerCycle_no_rotation_range st d hnr f a b hr⟩
  · intro lf hl hc
    exact tailerCycle_rotation_spec st d lf hl hc
  · intro d2 f a1 b1 a2 b2 h1 h2
    obtain ⟨hcur1, hlook1, _⟩ := tailerCycle_read_lookup st d f a1 b1 h1
    have ha2 := tailerCycle_read_start (tailerCycle st d).1 d2 f a2 b2 hcur1 h2
    rw [ha2, hlook1]

/-- C8 witness: tailing file `a` at offset 3 when it has grown to size 5
does not decrease the offset, and a rotation from `b` to `a` adopts `a`. -/
theorem tailer_offset_discipline_witness :
    lookupPos (TailerState.mk [("a", 3)] (some "a")).positions "a" ≤
      lookupPos (tailerCycle ⟨[("a", 3)], some "a"⟩ ⟨some "a", fun _ => 5⟩).1.positions "a" ∧
    (tailerCycle ⟨[("a", 3)], some "b"⟩ ⟨some "a", fun _ => 5⟩).1.current = some "a" :=
  ⟨((tailer_offset_discipline ⟨[("a", 3)], some "a"⟩ ⟨some "a", fun _ => 5⟩).2.1
      (Or.inl rfl)).1 "a",
   ((tailer_offset_discipline ⟨[("a", 3)], some "b"⟩ ⟨some "a", fun _ => 5⟩).2.2.1
      "a" rfl (by simp)).1⟩

end Avatar
